import Mathlib

set_option autoImplicit false

/-!
# Room Presence & Broadcast Coordinator — shallow embedding

Shallow embedding of the websocket coordination core of `infinitec-server`
(the `wss.on('connection', ...)` frame handlers and the
`heartbeatCheckInterval` liveness sweep), together with the slice of the
external store (prisma `Room` / `RoomMember` rows) that the sweeper reads
and mutates.

Modelling conventions:
* The in-memory `clients` map (`Map<string, ClientConnection>` keyed by
  `` `${roomId}_${userId}` ``) is an association list with JavaScript `Map`
  semantics: `set` replaces in place or appends, `get` returns the first
  match, `delete` removes the key.
* A transport handle (`ws`) is a `Nat`.  A send to a handle listed in
  `broken` throws; a successful send appends `(handle, frame)` to the
  `sent` log.  `Date.now()` is the state's `now` field.
* The heartbeat sweep's early `return` statements (which abort the whole
  interval callback) are modelled with `Except`: `.error st` is the state
  in which the callback returned, `.ok st` continues.
* `HEARTBEAT_INTERVAL` / `MAX_FAILED_HEARTBEATS` come from a constants
  module that is not part of the core source; the threshold is therefore a
  parameter `MAX` of every sweep function.
-/

/-- One live transport session, exactly the `ClientConnection` interface of
the source: transport handle, user id, room id, consecutive failed
heartbeat count, last heartbeat timestamp. -/
structure ClientConnection where
  ws : Nat
  userId : String
  roomId : String
  failedHeartbeats : Nat
  lastHeartbeat : Nat
  deriving Repr, DecidableEq

/-- The `clients` map: association list with JS `Map` semantics. -/
abbrev Registry := List (String × ClientConnection)

/-- `` `${roomId}_${userId}` `` — the key of the `clients` map. -/
def clientId (roomId userId : String) : String :=
  roomId ++ "_" ++ userId

/-- `clients.get(k)`. -/
def clientsGet (m : Registry) (k : String) : Option ClientConnection :=
  match m with
  | [] => none
  | (k', v) :: rest => if k' == k then some v else clientsGet rest k

/-- `clients.set(k, v)`: replaces the entry in place when the key is
present, appends otherwise (JS `Map` insertion-order semantics). -/
def clientsSet (m : Registry) (k : String) (v : ClientConnection) : Registry :=
  match m with
  | [] => [(k, v)]
  | (k', v') :: rest =>
      if k' == k then (k, v) :: rest else (k', v') :: clientsSet rest k v

/-- `clients.delete(k)`. -/
def clientsDelete (m : Registry) (k : String) : Registry :=
  m.filter (fun p => p.1 != k)

/-- A `Room` row of the external store (the fields the core consults). -/
structure Room where
  id : String
  roomId : String
  ownerId : String
  status : String
  deriving Repr, DecidableEq

/-- A `RoomMember` row: `roomId` is the owning `Room.id`. -/
structure RoomMember where
  roomId : String
  userId : String
  role : String
  deriving Repr, DecidableEq

/-- The external store's room/membership tables. -/
structure Store where
  rooms : List Room
  members : List RoomMember
  deriving Repr, DecidableEq

/-- Modelled from the spec: the prisma schema declaring `Room` and
`RoomMember` is not among the provided sources; §4.5 states that
dissolution "deletes the room and all memberships from the external store
as a single logical unit" and the data model says it "transitively removes
all memberships", so `prisma.room.delete` cascades to the room's
membership rows. -/
def Store.deleteRoom (s : Store) (id : String) : Store :=
  { rooms := s.rooms.filter (fun r => r.id != id)
    members := s.members.filter (fun m => m.roomId != id) }

/-- `prisma.roomMember.delete({where: {roomId_userId}})`. -/
def Store.deleteMembership (s : Store) (roomId userId : String) : Store :=
  { s with members :=
      s.members.filter (fun m => !(m.roomId == roomId && m.userId == userId)) }

/-- `prisma.roomMember.findMany({where: {roomId}})`. -/
def Store.findMembers (s : Store) (roomId : String) : List RoomMember :=
  s.members.filter (fun m => m.roomId == roomId)

/-- `prisma.room.findUnique({where: {id}}) !== null`. -/
def Store.roomExists (s : Store) (id : String) : Bool :=
  s.rooms.any (fun r => r.id == id)

/-- `prisma.roomMember.findUnique({where: {roomId_userId}}) !== null`. -/
def Store.memberExists (s : Store) (roomId userId : String) : Bool :=
  s.members.any (fun m => m.roomId == roomId && m.userId == userId)

/-- `prisma.room.findMany({where: {status: 'active'}})`. -/
def Store.activeRooms (s : Store) : List Room :=
  s.rooms.filter (fun r => r.status == "active")

/-- The JSON frames this core sends. -/
inductive Frame where
  | joined (roomId userId : String)
  | heartbeatAck (timestamp : Nat)
  | heartbeat (timestamp : Nat)
  | roomDeleted (roomId : String) (reason : Option String)
  | drawEvent (payload : String)
  deriving Repr, DecidableEq

/-- Whole-coordinator state: the `clients` registry, the external store,
the set of transport handles whose `send` throws, the log of successfully
delivered frames (in delivery order), and the current clock. -/
structure ServerState where
  clients : Registry
  store : Store
  broken : List Nat
  sent : List (Nat × Frame)
  now : Nat
  deriving Repr, DecidableEq

/-- `ws.send(frame)` inside a `try`: a send to a broken handle throws
(delivers nothing, returns `false`); otherwise the frame is appended to
the delivery log. -/
def trySend (st : ServerState) (ws : Nat) (f : Frame) : ServerState × Bool :=
  if st.broken.contains ws then (st, false)
  else ({ st with sent := st.sent ++ [(ws, f)] }, true)

/-- The per-connection closure variables `userId` / `roomId` of the
`wss.on('connection')` handler (both `null` until a `join` frame). -/
structure ConnState where
  userId : Option String
  roomId : Option String
  deriving Repr, DecidableEq

/-- `data.type === 'join'`: stores the frame's ids in the closure, and if
both are truthy installs a fresh registry entry (failure count 0, fresh
timestamp) and replies `joined`. -/
def handleJoin (st : ServerState) (ws : Nat) (dataUserId dataRoomId : String) :
    ServerState × ConnState :=
  let cs : ConnState := { userId := some dataUserId, roomId := some dataRoomId }
  if dataUserId != "" && dataRoomId != "" then
    let cid := clientId dataRoomId dataUserId
    let fresh : ClientConnection :=
      { ws := ws, userId := dataUserId, roomId := dataRoomId
        failedHeartbeats := 0, lastHeartbeat := st.now }
    let st := { st with clients := clientsSet st.clients cid fresh }
    ((trySend st ws (Frame.joined dataRoomId dataUserId)).1, cs)
  else (st, cs)

/-- `data.type === 'heartbeat'`: if the connection has joined and its
registry entry is present, reset the failure counter to 0, refresh the
timestamp, and reply `heartbeat_ack`; otherwise silently drop. -/
def handleHeartbeat (st : ServerState) (cs : ConnState) (ws : Nat) : ServerState :=
  match cs.userId, cs.roomId with
  | some uid, some rid =>
    if uid != "" && rid != "" then
      let cid := clientId rid uid
      match clientsGet st.clients cid with
      | some client =>
        let client := { client with failedHeartbeats := 0, lastHeartbeat := st.now }
        let st := { st with clients := clientsSet st.clients cid client }
        (trySend st ws (Frame.heartbeatAck st.now)).1
      | none => st
    else st
  | _, _ => st

/-- The `clients.forEach` body of the `draw_event` branch: deliver the
payload to each recipient in registry order.  There is no per-recipient
`try`, so the first throwing send aborts the remaining deliveries (the
outer `catch` of the message handler logs it). -/
def sendToRecipients (st : ServerState) (recips : List ClientConnection)
    (payload : String) : ServerState :=
  match recips with
  | [] => st
  | c :: rest =>
    if st.broken.contains c.ws then st
    else sendToRecipients
        { st with sent := st.sent ++ [(c.ws, Frame.drawEvent payload)] } rest payload

/-- `data.type === 'draw_event'`: if the closure `roomId` is truthy,
forward the payload to every registry entry in the same room whose user
differs from the closure `userId`. -/
def handleDrawEvent (st : ServerState) (cs : ConnState) (payload : String) :
    ServerState :=
  match cs.roomId with
  | some rid =>
    if rid != "" then
      let recips := (st.clients.map Prod.snd).filter
          (fun c => c.roomId == rid && some c.userId != cs.userId)
      sendToRecipients st recips payload
    else st
  | none => st

/-- `ws.on('close')`: if the connection had joined, delete its
`(roomId, userId)` key from the registry — without checking that the
stored handle is the closing transport. -/
def handleClose (st : ServerState) (cs : ConnState) : ServerState :=
  match cs.userId, cs.roomId with
  | some uid, some rid =>
    if uid != "" && rid != "" then
      { st with clients := clientsDelete st.clients (clientId rid uid) }
    else st
  | _, _ => st

/-! ## The heartbeat sweep (`heartbeatCheckInterval` callback) -/

/-- The room-vanished branch (`if (!roomExists)`): for each member of the
stale snapshot with a live registry entry, try to send `room_deleted`
(without a reason) and delete the registry entry in both the success and
the catch path. -/
def notifyRoomVanished (st : ServerState) (roomId : String) :
    List RoomMember → ServerState
  | [] => st
  | m :: rest =>
    let cid := clientId roomId m.userId
    let st' :=
      match clientsGet st.clients cid with
      | some client =>
        let st1 := (trySend st client.ws (Frame.roomDeleted roomId none)).1
        { st1 with clients := clientsDelete st1.clients cid }
      | none => st
    notifyRoomVanished st' roomId rest

/-- Fan-out of a reasoned `room_deleted` to a list of members: send to each
member's live registry entry if any; a throwing send is only logged (the
registry entry is kept). -/
def notifyList (st : ServerState) (roomId : String) (reason : String) :
    List RoomMember → ServerState
  | [] => st
  | m :: rest =>
    let st' :=
      match clientsGet st.clients (clientId roomId m.userId) with
      | some client =>
        (trySend st client.ws (Frame.roomDeleted roomId (some reason))).1
      | none => st
    notifyList st' roomId reason rest

/-- The `otherMembers` re-read plus notification loop that precedes both
dissolve branches: fresh `findMany({roomId, userId: {not: ...}})` against
the current store, then the reasoned `room_deleted` fan-out. -/
def notifyOthers (st : ServerState) (roomRowId roomId excludeUserId reason : String) :
    ServerState :=
  let others := st.store.members.filter
      (fun m => m.roomId == roomRowId && m.userId != excludeUserId)
  notifyList st roomId reason others

/-- The probe of a live member: `ws.send(heartbeat)` inside a `try`, and in
both the success and the catch path `failedHeartbeats++` followed by
`clients.set`. -/
def probeMember (st : ServerState) (cid : String) (c : ClientConnection) :
    ServerState :=
  let st1 := (trySend st c.ws (Frame.heartbeat st.now)).1
  let c1 := { c with failedHeartbeats := c.failedHeartbeats + 1 }
  { st1 with clients := clientsSet st1.clients cid c1 }

/-- The threshold re-check at the bottom of the member loop
(`updatedClient.failedHeartbeats >= MAX_FAILED_HEARTBEATS`): owner →
notify the others, delete the room, delete the owner's registry entry and
`return` from the whole callback (`.error`); non-owner → delete the
membership and the registry entry and continue. -/
def thresholdCheck (MAX : Nat) (st : ServerState) (room : Room) (m : RoomMember) :
    Except ServerState ServerState :=
  let cid := clientId room.roomId m.userId
  match clientsGet st.clients cid with
  | some updatedClient =>
    if updatedClient.failedHeartbeats ≥ MAX then
      if m.userId == room.ownerId then
        let st1 := notifyOthers st room.id room.roomId m.userId "owner_timeout"
        let st2 := { st1 with store := st1.store.deleteRoom room.id }
        Except.error { st2 with clients := clientsDelete st2.clients cid }
      else
        let st1 := { st with store := st.store.deleteMembership room.id m.userId }
        Except.ok { st1 with clients := clientsDelete st1.clients cid }
    else Except.ok st
  | none => Except.ok st

/-- One iteration of the member loop: live entry → probe (optimistic
increment); no entry and member is the owner → notify the others with
reason `owner_disconnected`, delete the room and `return` (`.error`); no
entry and non-owner → delete that single membership if still present.
Control then falls through to the threshold re-check. -/
def stepMember (MAX : Nat) (st : ServerState) (room : Room) (m : RoomMember) :
    Except ServerState ServerState :=
  let cid := clientId room.roomId m.userId
  match clientsGet st.clients cid with
  | some client => thresholdCheck MAX (probeMember st cid client) room m
  | none =>
    if m.userId == room.ownerId then
      let st1 := notifyOthers st room.id room.roomId m.userId "owner_disconnected"
      Except.error { st1 with store := st1.store.deleteRoom room.id }
    else
      let st1 :=
        if st.store.memberExists room.id m.userId then
          { st with store := st.store.deleteMembership room.id m.userId }
        else st
      thresholdCheck MAX st1 room m

/-- The member loop over the membership snapshot of one room. -/
def processMembers (MAX : Nat) (room : Room) :
    List RoomMember → ServerState → Except ServerState ServerState
  | [], st => Except.ok st
  | m :: rest, st =>
    match stepMember MAX st room m with
    | Except.ok st1 => processMembers MAX room rest st1
    | Except.error st1 => Except.error st1

/-- One iteration of the room loop: membership snapshot, room-vanished
re-check (`continue`), member loop, then the empty-room cleanup
(`remainingMembers === 0` → delete the room). -/
def processRoom (MAX : Nat) (st : ServerState) (room : Room) :
    Except ServerState ServerState :=
  let members := st.store.findMembers room.id
  if !(st.store.roomExists room.id) then
    Except.ok (notifyRoomVanished st room.roomId members)
  else
    match processMembers MAX room members st with
    | Except.error st1 => Except.error st1
    | Except.ok st1 =>
      if (st1.store.findMembers room.id).length == 0 then
        Except.ok { st1 with store := st1.store.deleteRoom room.id }
      else Except.ok st1

/-- The room loop: an `.error` from a dissolve branch is the callback's
`return`, so the remaining rooms of the snapshot are not processed. -/
def sweepRooms (MAX : Nat) : List Room → ServerState → ServerState
  | [], st => st
  | r :: rest, st =>
    match processRoom MAX st r with
    | Except.ok st1 => sweepRooms MAX rest st1
    | Except.error st1 => st1

/-- One sweep cycle: snapshot the active rooms, then run the room loop. -/
def heartbeatCheck (MAX : Nat) (st : ServerState) : ServerState :=
  sweepRooms MAX st.store.activeRooms st

/-- Number of copies of frame `f` delivered to transport `ws` in a log. -/
def countFrames (sent : List (Nat × Frame)) (ws : Nat) (f : Frame) : Nat :=
  (sent.filter (fun p => p.1 == ws && p.2 == f)).length

/-- The state carried by a sweep-step outcome, whether the member loop
continued (`.ok`) or the callback returned (`.error`). -/
def exceptState : Except ServerState ServerState → ServerState
  | Except.ok st => st
  | Except.error st => st

/-- Number of registry entries stored under a key (JS `Map` keeps this at
most 1; `clientsSet` restores it to exactly 1). -/
def countKey (m : Registry) (k : String) : Nat :=
  (m.filter (fun p => p.1 == k)).length

/-- The frames a `notifyList` fan-out appends: one reasoned `room_deleted`
per member whose registry entry is live and whose transport is not
broken. -/
def notifyDeltas (reg : Registry) (broken : List Nat) (rid reason : String) :
    List RoomMember → List (Nat × Frame)
  | [] => []
  | m :: rest =>
    (match clientsGet reg (clientId rid m.userId) with
     | some c =>
        if broken.contains c.ws then []
        else [(c.ws, Frame.roomDeleted rid (some reason))]
     | none => []) ++ notifyDeltas reg broken rid reason rest

/-- All registry failure counters strictly below the threshold. -/
def countersBelow (MAX : Nat) (reg : Registry) : Prop :=
  ∀ k c, clientsGet reg k = some c → c.failedHeartbeats < MAX

/-- A sequence of accepted `join` frames for one `(room, participant)` key
arriving on successive transports. -/
def applyJoins (st : ServerState) (uid rid : String) : List Nat → ServerState
  | [] => st
  | w :: rest => applyJoins (handleJoin st w uid rid).1 uid rid rest

/-! ### Concrete scenario states (used by counterexamples and witnesses) -/

/-- No connections, no rooms. -/
def emptyState : ServerState :=
  { clients := [], store := { rooms := [], members := [] }, broken := [], sent := [], now := 0 }

/-- Room `R1` (row `r1`) owned by `U1`; `U1`'s counter is one short of the
threshold 3 and `U2` is a live, healthy member — the spec's §8 concrete
owner-timeout scenario at the sweep that delivers the third missed
probe. -/
def ownerTimeoutState : ServerState :=
  { clients := [("R1_U1", ⟨1, "U1", "R1", 2, 0⟩), ("R1_U2", ⟨2, "U2", "R1", 0, 0⟩)]
    store := { rooms := [⟨"r1", "R1", "U1", "active"⟩]
               members := [⟨"r1", "U1", "owner"⟩, ⟨"r1", "U2", "member"⟩] }
    broken := []
    sent := []
    now := 5 }

/-- Two active rooms whose owners both lack live connections, nobody
connected at all. -/
def twoRoomState : ServerState :=
  { clients := []
    store := { rooms := [⟨"r1", "R1", "U1", "active"⟩, ⟨"r2", "R2", "U3", "active"⟩]
               members := [⟨"r1", "U1", "owner"⟩, ⟨"r2", "U3", "owner"⟩] }
    broken := []
    sent := []
    now := 0 }

/-- The state `twoRoomState` reaches when the sweep dissolves room `r1`
and the callback returns. -/
def twoRoomAfterFirst : ServerState :=
  { clients := []
    store := { rooms := [⟨"r2", "R2", "U3", "active"⟩]
               members := [⟨"r2", "U3", "owner"⟩] }
    broken := []
    sent := []
    now := 0 }

/-- Owner `U1` live and healthy, member `U2` live but with a broken
transport (its `send` throws). -/
def probeFailState : ServerState :=
  { clients := [("R1_U1", ⟨1, "U1", "R1", 0, 0⟩), ("R1_U2", ⟨2, "U2", "R1", 0, 0⟩)]
    store := { rooms := [⟨"r1", "R1", "U1", "active"⟩]
               members := [⟨"r1", "U1", "owner"⟩, ⟨"r1", "U2", "member"⟩] }
    broken := [2]
    sent := []
    now := 7 }

/-- Owner `U1` healthy; member `U2` live with two probes already charged
(one short of the threshold 3). -/
def memberTimeoutState : ServerState :=
  { clients := [("R1_U1", ⟨1, "U1", "R1", 0, 0⟩), ("R1_U2", ⟨2, "U2", "R1", 2, 0⟩)]
    store := { rooms := [⟨"r1", "R1", "U1", "active"⟩]
               members := [⟨"r1", "U1", "owner"⟩, ⟨"r1", "U2", "member"⟩] }
    broken := []
    sent := []
    now := 9 }

/-- Participants `A`, `B`, `C` of room `R1`, in registry order, with `B`'s
transport broken. -/
def drawAbortState : ServerState :=
  { clients := [("R1_A", ⟨1, "A", "R1", 0, 0⟩), ("R1_B", ⟨2, "B", "R1", 0, 0⟩),
                ("R1_C", ⟨3, "C", "R1", 0, 0⟩)]
    store := { rooms := [], members := [] }
    broken := [2]
    sent := []
    now := 0 }

/-- Participants `A`, `B`, `C` of room `R1` with healthy transports. -/
def drawHealthyState : ServerState :=
  { clients := [("R1_A", ⟨1, "A", "R1", 0, 0⟩), ("R1_B", ⟨2, "B", "R1", 0, 0⟩),
                ("R1_C", ⟨3, "C", "R1", 0, 0⟩)]
    store := { rooms := [], members := [] }
    broken := []
    sent := []
    now := 0 }

/-- Room `R1` whose owner `U1` has no registry entry while member `U2` is
live. -/
def ownerAbsentState : ServerState :=
  { clients := [("R1_U2", ⟨2, "U2", "R1", 0, 0⟩)]
    store := { rooms := [⟨"r1", "R1", "U1", "active"⟩]
               members := [⟨"r1", "U1", "owner"⟩, ⟨"r1", "U2", "member"⟩] }
    broken := []
    sent := []
    now := 0 }

/-! ## Registry map lemmas -/

theorem clientsGet_set_self (m : Registry) (k : String) (v : ClientConnection) :
    clientsGet (clientsSet m k v) k = some v := by
  induction m with
  | nil => simp [clientsGet, clientsSet]
  | cons p rest ih =>
    obtain ⟨k', v'⟩ := p
    by_cases h : k' = k
    · simp [clientsSet, clientsGet, h]
    · simp only [clientsSet, clientsGet, beq_iff_eq, if_neg h]
      exact ih

theorem clientsGet_set_ne (m : Registry) (k k' : String) (v : ClientConnection)
    (h : k' ≠ k) : clientsGet (clientsSet m k v) k' = clientsGet m k' := by
  induction m with
  | nil => simp [clientsGet, clientsSet, beq_iff_eq, Ne.symm h]
  | cons p rest ih =>
    obtain ⟨k₀, v₀⟩ := p
    by_cases h0 : k₀ = k
    · subst h0
      simp [clientsSet, clientsGet, beq_iff_eq, Ne.symm h]
    · simp only [clientsSet, clientsGet, beq_iff_eq, if_neg h0]
      by_cases h1 : k₀ = k'
      · simp [h1]
      · simp only [if_neg h1]
        exact ih

theorem clientsGet_delete_self (m : Registry) (k : String) :
    clientsGet (clientsDelete m k) k = none := by
  induction m with
  | nil => rfl
  | cons p rest ih =>
    obtain ⟨k₀, v₀⟩ := p
    simp only [clientsDelete, List.filter_cons] at ih ⊢
    by_cases h0 : k₀ = k
    · simpa [bne_iff_ne, h0] using ih
    · simpa [bne_iff_ne, h0, clientsGet, beq_iff_eq] using ih

theorem clientsGet_delete_ne (m : Registry) (k k' : String) (h : k' ≠ k) :
    clientsGet (clientsDelete m k) k' = clientsGet m k' := by
  induction m with
  | nil => rfl
  | cons p rest ih =>
    obtain ⟨k₀, v₀⟩ := p
    simp only [clientsDelete, List.filter_cons] at ih ⊢
    by_cases h0 : k₀ = k
    · subst h0
      simpa [bne_iff_ne, clientsGet, beq_iff_eq, Ne.symm h] using ih
    · by_cases h1 : k₀ = k'
      · simp [bne_iff_ne, h0, h1, clientsGet, beq_iff_eq, h]
      · simpa [bne_iff_ne, h0, h1, clientsGet, beq_iff_eq] using ih

/-- `clientsDelete` never creates entries. -/
theorem clientsGet_delete_none (m : Registry) (k k' : String)
    (h : clientsGet m k' = none) : clientsGet (clientsDelete m k) k' = none := by
  by_cases hk : k' = k
  · subst hk; exact clientsGet_delete_self _ _
  · rw [clientsGet_delete_ne m k k' hk]; exact h

/-- The two room-key components determine the user component. -/
theorem clientId_inj_right {r u u' : String} (h : clientId r u = clientId r u') :
    u = u' := by
  unfold clientId at h
  have hd : (r ++ "_" ++ u).data = (r ++ "_" ++ u').data := by rw [h]
  simp only [String.data_append] at hd
  have := List.append_cancel_left hd
  exact String.ext this

/-! ## State-operation lemmas -/

theorem trySend_fst (st : ServerState) (ws : Nat) (f : Frame) :
    (trySend st ws f).1 =
      { st with sent :=
          if st.broken.contains ws then st.sent else st.sent ++ [(ws, f)] } := by
  unfold trySend
  split <;> simp_all

theorem notifyList_spec (rid reason : String) (ms : List RoomMember) :
    ∀ st : ServerState,
      notifyList st rid reason ms =
        { st with sent :=
            st.sent ++ notifyDeltas st.clients st.broken rid reason ms } := by
  induction ms with
  | nil => intro st; simp [notifyList, notifyDeltas]
  | cons m rest ih =>
    intro st
    cases hc : clientsGet st.clients (clientId rid m.userId) with
    | none => simp only [notifyList, notifyDeltas, hc]; rw [ih]; simp
    | some c =>
      simp only [notifyList, notifyDeltas, hc]
      rw [trySend_fst]
      by_cases hb : st.broken.contains c.ws
      · rw [if_pos hb, if_pos hb, ih]; simp
      · rw [if_neg hb, if_neg hb, ih]; simp

theorem notifyOthers_spec (st : ServerState) (roomRowId roomId eu reason : String) :
    notifyOthers st roomRowId roomId eu reason =
      { st with sent := st.sent ++
                  notifyDeltas st.clients st.broken roomId reason
                    (st.store.members.filter
                      (fun m => m.roomId == roomRowId && m.userId != eu)) } := by
  unfold notifyOthers
  exact notifyList_spec _ _ _ _

theorem probeMember_spec (st : ServerState) (cid : String) (c : ClientConnection) :
    probeMember st cid c =
      { st with
          clients := clientsSet st.clients cid { c with failedHeartbeats := c.failedHeartbeats + 1 }
          sent :=
            if st.broken.contains c.ws then st.sent
            else st.sent ++ [(c.ws, Frame.heartbeat st.now)] } := by
  unfold probeMember
  rw [trySend_fst]

theorem countFrames_append (a b : List (Nat × Frame)) (ws : Nat) (f : Frame) :
    countFrames (a ++ b) ws f = countFrames a ws f + countFrames b ws f := by
  simp [countFrames, List.filter_append]

/-! ## Store lemmas -/

theorem Store.roomExists_deleteRoom_self (s : Store) (id : String) :
    (s.deleteRoom id).roomExists id = false := by
  simp only [Store.deleteRoom, Store.roomExists]
  rw [List.any_eq_false]
  intro r hr
  rw [List.mem_filter] at hr
  simp only [bne_iff_ne, ne_eq, decide_eq_true_eq] at hr
  simp [hr.2]

theorem Store.findMembers_deleteRoom_self (s : Store) (id : String) :
    (s.deleteRoom id).findMembers id = [] := by
  simp only [Store.deleteRoom, Store.findMembers]
  rw [List.filter_eq_nil_iff]
  intro m hm
  rw [List.mem_filter] at hm
  simp only [bne_iff_ne, ne_eq, decide_eq_true_eq] at hm
  simp [hm.2]

theorem Store.memberExists_deleteMembership_self (s : Store) (roomId userId : String) :
    (s.deleteMembership roomId userId).memberExists roomId userId = false := by
  simp only [Store.deleteMembership, Store.memberExists]
  rw [List.any_eq_false]
  intro m hm
  rw [List.mem_filter] at hm
  simp only [Bool.not_eq_true'] at hm
  intro hcontra
  rw [hm.2] at hcontra
  exact Bool.false_ne_true hcontra

/-! ## Notification fan-out invariants -/

theorem notifyList_clients (st : ServerState) (rid reason : String)
    (ms : List RoomMember) : (notifyList st rid reason ms).clients = st.clients := by
  rw [notifyList_spec]

theorem notifyList_store (st : ServerState) (rid reason : String)
    (ms : List RoomMember) : (notifyList st rid reason ms).store = st.store := by
  rw [notifyList_spec]

theorem notifyOthers_clients (st : ServerState) (a b c d : String) :
    (notifyOthers st a b c d).clients = st.clients := by
  rw [notifyOthers_spec]

theorem notifyOthers_store (st : ServerState) (a b c d : String) :
    (notifyOthers st a b c d).store = st.store := by
  rw [notifyOthers_spec]

theorem notifyOthers_broken (st : ServerState) (a b c d : String) :
    (notifyOthers st a b c d).broken = st.broken := by
  rw [notifyOthers_spec]

/-- The room-vanished loop never creates registry entries. -/
theorem notifyRoomVanished_get_none (rid : String) (ms : List RoomMember) :
    ∀ (st : ServerState) (k : String), clientsGet st.clients k = none →
      clientsGet (notifyRoomVanished st rid ms).clients k = none := by
  induction ms with
  | nil => intro st k h; simpa [notifyRoomVanished] using h
  | cons m rest ih =>
    intro st k h
    cases hc : clientsGet st.clients (clientId rid m.userId) with
    | none => simp only [notifyRoomVanished, hc]; exact ih st k h
    | some c =>
      simp only [notifyRoomVanished, hc]
      apply ih
      rw [trySend_fst]
      exact clientsGet_delete_none _ _ _ h

/-- Every entry surviving the room-vanished loop was present before it. -/
theorem notifyRoomVanished_get_some (rid : String) (ms : List RoomMember) :
    ∀ (st : ServerState) (k : String) (c : ClientConnection),
      clientsGet (notifyRoomVanished st rid ms).clients k = some c →
      clientsGet st.clients k = some c := by
  induction ms with
  | nil => intro st k c h; simpa [notifyRoomVanished] using h
  | cons m rest ih =>
    intro st k c h
    cases hc : clientsGet st.clients (clientId rid m.userId) with
    | none => simp only [notifyRoomVanished, hc] at h; exact ih st k c h
    | some c₀ =>
      simp only [notifyRoomVanished, hc] at h
      have h2 := ih _ k c h
      rw [trySend_fst] at h2
      by_cases hk : k = clientId rid m.userId
      · subst hk
        rw [clientsGet_delete_self] at h2
        exact absurd h2 (by simp)
      · rwa [clientsGet_delete_ne _ _ _ hk] at h2

/-- The room-vanished loop removes the registry entry of every member of
the list it is given. -/
theorem notifyRoomVanished_member_none (rid : String) (ms : List RoomMember) :
    ∀ (st : ServerState) (m : RoomMember), m ∈ ms →
      clientsGet (notifyRoomVanished st rid ms).clients (clientId rid m.userId) = none := by
  induction ms with
  | nil => intro st m h; exact absurd h (List.not_mem_nil m)
  | cons m₀ rest ih =>
    intro st m hm
    rcases List.mem_cons.mp hm with h | h
    · subst h
      cases hc : clientsGet st.clients (clientId rid m.userId) with
      | none =>
        simp only [notifyRoomVanished, hc]
        exact notifyRoomVanished_get_none rid rest _ _ hc
      | some c =>
        simp only [notifyRoomVanished, hc]
        apply notifyRoomVanished_get_none rid rest
        rw [trySend_fst]
        exact clientsGet_delete_self _ _
    · cases hc : clientsGet st.clients (clientId rid m₀.userId) with
      | none => simp only [notifyRoomVanished, hc]; exact ih st m h
      | some c => simp only [notifyRoomVanished, hc]; exact ih _ m h

theorem notifyRoomVanished_store (rid : String) (ms : List RoomMember) :
    ∀ st : ServerState, (notifyRoomVanished st rid ms).store = st.store := by
  induction ms with
  | nil => intro st; rfl
  | cons m rest ih =>
    intro st
    cases hc : clientsGet st.clients (clientId rid m.userId) with
    | none => simp only [notifyRoomVanished, hc]; exact ih st
    | some c => simp only [notifyRoomVanished, hc]; rw [ih, trySend_fst]

/-! ## Broadcast characterization -/

theorem sendToRecipients_spec (payload : String) :
    ∀ (recips : List ClientConnection) (st : ServerState),
      sendToRecipients st recips payload =
        { st with sent := st.sent ++
                    (recips.takeWhile (fun c => !st.broken.contains c.ws)).map
                      (fun c => (c.ws, Frame.drawEvent payload)) } := by
  intro recips
  induction recips with
  | nil => intro st; simp [sendToRecipients, List.takeWhile]
  | cons c rest ih =>
    intro st
    by_cases hb : c.ws ∈ st.broken
    · simp [sendToRecipients, hb, List.takeWhile_cons]
    · simp only [sendToRecipients]
      rw [if_neg (by simpa using hb)]
      rw [ih]
      simp [List.takeWhile_cons, hb]

/-- With no broken transport, the abort-on-throw traversal delivers to the
whole recipient list. -/
theorem takeWhile_nil_broken (l : List ClientConnection) :
    (l.takeWhile fun c => !(([] : List Nat).contains c.ws)) = l := by
  induction l with
  | nil => rfl
  | cons c rest ih => simp [List.takeWhile_cons, ih]

/-- Reduction of the `draw_event` branch for a joined connection. -/
theorem handleDrawEvent_joined (st : ServerState) (su : Option String)
    (rid payload : String) (hr : rid ≠ "") :
    handleDrawEvent st ⟨su, some rid⟩ payload =
      sendToRecipients st
        ((st.clients.map Prod.snd).filter
          (fun c => c.roomId == rid && some c.userId != su)) payload := by
  simp [handleDrawEvent, bne_iff_ne, hr]

/-! ## Protocol-handler characterizations -/

theorem handleJoin_spec (st : ServerState) (ws : Nat) (uid rid : String)
    (hu : uid ≠ "") (hr : rid ≠ "") :
    handleJoin st ws uid rid =
      ({ st with
          clients := clientsSet st.clients (clientId rid uid)
            { ws := ws, userId := uid, roomId := rid, failedHeartbeats := 0, lastHeartbeat := st.now }
          sent :=
            if st.broken.contains ws then st.sent
            else st.sent ++ [(ws, Frame.joined rid uid)] },
        { userId := some uid, roomId := some rid }) := by
  simp only [handleJoin, bne_iff_ne, hu, hr]
  rw [if_pos (by simp [bne_iff_ne, hu, hr])]
  rw [trySend_fst]

theorem handleHeartbeat_ack (st : ServerState) (uid rid : String) (ws : Nat)
    (c : ClientConnection) (hu : uid ≠ "") (hr : rid ≠ "")
    (hc : clientsGet st.clients (clientId rid uid) = some c) :
    handleHeartbeat st ⟨some uid, some rid⟩ ws =
      { st with
          clients := clientsSet st.clients (clientId rid uid)
            { c with failedHeartbeats := 0, lastHeartbeat := st.now }
          sent :=
            if st.broken.contains ws then st.sent
            else st.sent ++ [(ws, Frame.heartbeatAck st.now)] } := by
  simp only [handleHeartbeat]
  rw [if_pos (by simp [bne_iff_ne, hu, hr])]
  simp only [hc]
  rw [trySend_fst]

theorem handleHeartbeat_miss (st : ServerState) (uid rid : String) (ws : Nat)
    (hc : clientsGet st.clients (clientId rid uid) = none) :
    handleHeartbeat st ⟨some uid, some rid⟩ ws = st := by
  simp only [handleHeartbeat]
  by_cases h : uid ≠ "" ∧ rid ≠ ""
  · rw [if_pos (by simp [bne_iff_ne, h.1, h.2])]
    simp only [hc]
  · rw [if_neg]
    simp [bne_iff_ne]
    tauto

/-! ## `countKey` lemmas (key uniqueness of the JS map) -/

theorem countKey_cons (k₀ : String) (v₀ : ClientConnection) (rest : Registry)
    (k : String) :
    countKey ((k₀, v₀) :: rest) k = (if k₀ = k then 1 else 0) + countKey rest k := by
  by_cases h0 : k₀ = k
  · simp [countKey, List.filter_cons, h0]
    omega
  · simp [countKey, List.filter_cons, h0]

theorem countKey_set (m : Registry) (k : String) (v : ClientConnection)
    (h : countKey m k ≤ 1) : countKey (clientsSet m k v) k = 1 := by
  induction m with
  | nil => simp [countKey, clientsSet]
  | cons p rest ih =>
    obtain ⟨k₀, v₀⟩ := p
    rw [countKey_cons] at h
    by_cases h0 : k₀ = k
    · rw [if_pos h0] at h
      simp only [clientsSet, beq_iff_eq, if_pos h0]
      rw [countKey_cons, if_pos rfl]
      omega
    · rw [if_neg h0] at h
      simp only [clientsSet, beq_iff_eq, if_neg h0]
      rw [countKey_cons, if_neg h0]
      have := ih (by omega)
      omega

theorem countKey_le_one_of_set (m : Registry) (k : String) (v : ClientConnection)
    (h : countKey m k ≤ 1) : countKey (clientsSet m k v) k ≤ 1 := by
  rw [countKey_set m k v h]

theorem countFrames_nil (ws : Nat) (f : Frame) : countFrames [] ws f = 0 := rfl

theorem countFrames_singleton (w : Nat) (f' : Frame) (ws : Nat) (f : Frame) :
    countFrames [(w, f')] ws f = if w = ws ∧ f' = f then 1 else 0 := by
  by_cases h : w = ws ∧ f' = f
  · simp [countFrames, List.filter, h.1, h.2]
  · rcases Decidable.not_and_iff_or_not.mp h with h1 | h1 <;>
      simp [countFrames, List.filter_cons, h1, h]

/-- A reasoned `room_deleted` fan-out over a member list delivers to the
transport of a live, unbroken connection exactly as often as its user
occurs in the list — provided no other entry of the room aliases that
transport handle. -/
theorem notifyDeltas_count_one (reg : Registry) (broken : List Nat)
    (rid reason u : String) (c : ClientConnection)
    (hc : clientsGet reg (clientId rid u) = some c)
    (hok : broken.contains c.ws = false)
    (hws : ∀ u' c', clientsGet reg (clientId rid u') = some c' → c'.ws = c.ws → u' = u) :
    ∀ L : List RoomMember,
      countFrames (notifyDeltas reg broken rid reason L) c.ws
          (Frame.roomDeleted rid (some reason)) =
        (L.filter (fun x => x.userId == u)).length := by
  intro L
  induction L with
  | nil => simp [notifyDeltas, countFrames]
  | cons m rest ih =>
    simp only [notifyDeltas, countFrames_append, List.filter_cons]
    by_cases hm : m.userId = u
    · rw [hm, hc]
      simp only [hok, Bool.false_eq_true, if_false]
      rw [countFrames_singleton]
      simp [hm, ih, Nat.add_comm]
    · cases hget : clientsGet reg (clientId rid m.userId) with
      | none => simp [countFrames_nil, ih, hm]
      | some c₂ =>
        by_cases hb2 : c₂.ws ∈ broken
        · simp [hb2, countFrames_nil, ih, hm]
        · have hb2' : broken.contains c₂.ws = false := by simpa using hb2
          have hwne : c₂.ws ≠ c.ws := fun he => hm (hws m.userId c₂ hget he)
          simp only [hb2', Bool.false_eq_true, if_false]
          rw [countFrames_singleton]
          simp [hwne, ih, hm]

/-! ## Sweep-step case analysis -/

theorem probeMember_get_self (st : ServerState) (cid : String) (c : ClientConnection) :
    clientsGet (probeMember st cid c).clients cid =
      some { c with failedHeartbeats := c.failedHeartbeats + 1 } := by
  rw [probeMember_spec]
  exact clientsGet_set_self _ _ _

theorem probeMember_get_ne (st : ServerState) (cid : String) (c : ClientConnection)
    (k : String) (h : k ≠ cid) :
    clientsGet (probeMember st cid c).clients k = clientsGet st.clients k := by
  rw [probeMember_spec]
  exact clientsGet_set_ne _ _ _ _ h

theorem probeMember_store (st : ServerState) (cid : String) (c : ClientConnection) :
    (probeMember st cid c).store = st.store := by
  rw [probeMember_spec]

theorem probeMember_broken (st : ServerState) (cid : String) (c : ClientConnection) :
    (probeMember st cid c).broken = st.broken := by
  rw [probeMember_spec]

theorem probeMember_now (st : ServerState) (cid : String) (c : ClientConnection) :
    (probeMember st cid c).now = st.now := by
  rw [probeMember_spec]

/-- A member with a live registry entry is always probed first; the
threshold re-check happens on the probed state. -/
theorem stepMember_live (MAX : Nat) (st : ServerState) (room : Room) (m : RoomMember)
    (c : ClientConnection)
    (hc : clientsGet st.clients (clientId room.roomId m.userId) = some c) :
    stepMember MAX st room m =
      thresholdCheck MAX (probeMember st (clientId room.roomId m.userId) c) room m := by
  simp only [stepMember, hc]

/-- Below the threshold, the sweep step only records the probe: no
eviction, no store change. -/
theorem stepMember_live_below (MAX : Nat) (st : ServerState) (room : Room)
    (m : RoomMember) (c : ClientConnection)
    (hc : clientsGet st.clients (clientId room.roomId m.userId) = some c)
    (hlt : c.failedHeartbeats + 1 < MAX) :
    stepMember MAX st room m =
      Except.ok (probeMember st (clientId room.roomId m.userId) c) := by
  rw [stepMember_live MAX st room m c hc]
  simp only [thresholdCheck, probeMember_get_self]
  rw [if_neg (by omega)]

/-- At the threshold, a non-owner member is evicted: registry entry and
membership row deleted, the member loop continues. -/
theorem stepMember_live_at_nonowner (MAX : Nat) (st : ServerState) (room : Room)
    (m : RoomMember) (c : ClientConnection)
    (hc : clientsGet st.clients (clientId room.roomId m.userId) = some c)
    (hge : c.failedHeartbeats + 1 ≥ MAX) (hno : m.userId ≠ room.ownerId) :
    ∃ st', stepMember MAX st room m = Except.ok st' ∧
      st'.clients = clientsDelete
        (clientsSet st.clients (clientId room.roomId m.userId)
          { c with failedHeartbeats := c.failedHeartbeats + 1 })
        (clientId room.roomId m.userId) ∧
      st'.store = st.store.deleteMembership room.id m.userId ∧
      st'.broken = st.broken ∧ st'.now = st.now := by
  rw [stepMember_live MAX st room m c hc]
  simp only [thresholdCheck, probeMember_get_self]
  rw [if_pos hge, if_neg (by simp [hno])]
  exact ⟨_, rfl, by simp [probeMember_spec], by simp [probeMember_spec],
    by simp [probeMember_spec], by simp [probeMember_spec]⟩

/-- At the threshold, the owner's failure dissolves the room: the others
are notified, the room row is deleted and the owner's registry entry
removed, and the callback returns. -/
theorem stepMember_live_at_owner (MAX : Nat) (st : ServerState) (room : Room)
    (m : RoomMember) (c : ClientConnection)
    (hc : clientsGet st.clients (clientId room.roomId m.userId) = some c)
    (hge : c.failedHeartbeats + 1 ≥ MAX) (ho : m.userId = room.ownerId) :
    ∃ st', stepMember MAX st room m = Except.error st' ∧
      st'.clients = clientsDelete
        (clientsSet st.clients (clientId room.roomId m.userId)
          { c with failedHeartbeats := c.failedHeartbeats + 1 })
        (clientId room.roomId m.userId) ∧
      st'.store = st.store.deleteRoom room.id ∧
      st'.broken = st.broken ∧ st'.now = st.now := by
  rw [stepMember_live MAX st room m c hc]
  simp only [thresholdCheck, probeMember_get_self]
  rw [if_pos hge, if_pos (by simp [ho])]
  refine ⟨_, rfl, ?_, ?_, ?_, ?_⟩
  · simp [notifyOthers_clients, probeMember_spec]
  · simp [notifyOthers_store, probeMember_spec]
  · simp [notifyOthers_broken, probeMember_spec]
  · simp [notifyOthers_spec, probeMember_spec]

/-- The owner-absent branch: the sweep examines the owner, finds no live
registry entry, notifies the other members and deletes the room, and the
callback returns. -/
theorem stepMember_absent_owner (MAX : Nat) (st : ServerState) (room : Room)
    (m : RoomMember)
    (hab : clientsGet st.clients (clientId room.roomId m.userId) = none)
    (ho : m.userId = room.ownerId) :
    stepMember MAX st room m = Except.error
      { st with
          store := st.store.deleteRoom room.id
          sent := st.sent ++
            notifyDeltas st.clients st.broken room.roomId "owner_disconnected"
              (st.store.members.filter
                (fun mm => mm.roomId == room.id && mm.userId != m.userId)) } := by
  simp only [stepMember, hab]
  rw [if_pos (by simp [ho]), notifyOthers_spec]

/-- The absent-non-owner branch: only that membership row is removed and
the member loop continues. -/
theorem stepMember_absent_nonowner (MAX : Nat) (st : ServerState) (room : Room)
    (m : RoomMember)
    (hab : clientsGet st.clients (clientId room.roomId m.userId) = none)
    (hno : m.userId ≠ room.ownerId) :
    stepMember MAX st room m = Except.ok
      (if st.store.memberExists room.id m.userId
       then { st with store := st.store.deleteMembership room.id m.userId }
       else st) := by
  simp only [stepMember, hab]
  rw [if_neg (by simp [hno])]
  by_cases hex : st.store.memberExists room.id m.userId
  · rw [if_pos hex]
    simp only [thresholdCheck, hab]
  · rw [if_neg hex]
    simp only [thresholdCheck, hab]

theorem probeMember_clients (st : ServerState) (cid : String) (c : ClientConnection) :
    (probeMember st cid c).clients =
      clientsSet st.clients cid { c with failedHeartbeats := c.failedHeartbeats + 1 } := by
  rw [probeMember_spec]

/-! ## Counter-threshold invariant -/

theorem countersBelow_set (MAX : Nat) (reg : Registry) (k : String)
    (v : ClientConnection) (h : countersBelow MAX reg)
    (hv : v.failedHeartbeats < MAX) : countersBelow MAX (clientsSet reg k v) := by
  intro k' c' hg
  by_cases hk : k' = k
  · subst hk
    rw [clientsGet_set_self] at hg
    cases hg
    exact hv
  · rw [clientsGet_set_ne _ _ _ _ hk] at hg
    exact h k' c' hg

theorem countersBelow_delete_set (MAX : Nat) (reg : Registry) (k : String)
    (v : ClientConnection) (h : countersBelow MAX reg) :
    countersBelow MAX (clientsDelete (clientsSet reg k v) k) := by
  intro k' c' hg
  by_cases hk : k' = k
  · subst hk
    rw [clientsGet_delete_self] at hg
    exact Option.noConfusion hg
  · rw [clientsGet_delete_ne _ _ _ hk, clientsGet_set_ne _ _ _ _ hk] at hg
    exact h k' c' hg

/-- A sweep member step keeps every surviving failure counter strictly
below the threshold: a counter that reaches it is evicted (or its room
dissolved) within the very step that pushed it there. -/
theorem countersBelow_stepMember (MAX : Nat) (st : ServerState) (room : Room)
    (m : RoomMember) (h : countersBelow MAX st.clients) :
    countersBelow MAX (exceptState (stepMember MAX st room m)).clients := by
  cases hc : clientsGet st.clients (clientId room.roomId m.userId) with
  | some c =>
    by_cases hge : c.failedHeartbeats + 1 ≥ MAX
    · by_cases ho : m.userId = room.ownerId
      · obtain ⟨st', heq, hcl, -, -, -⟩ :=
          stepMember_live_at_owner MAX st room m c hc hge ho
        rw [heq]
        simp only [exceptState]
        rw [hcl]
        exact countersBelow_delete_set _ _ _ _ h
      · obtain ⟨st', heq, hcl, -, -, -⟩ :=
          stepMember_live_at_nonowner MAX st room m c hc hge ho
        rw [heq]
        simp only [exceptState]
        rw [hcl]
        exact countersBelow_delete_set _ _ _ _ h
    · have hlt : c.failedHeartbeats + 1 < MAX := by omega
      rw [stepMember_live_below MAX st room m c hc hlt]
      simp only [exceptState]
      rw [probeMember_clients]
      exact countersBelow_set _ _ _ _ h hlt
  | none =>
    by_cases ho : m.userId = room.ownerId
    · rw [stepMember_absent_owner MAX st room m hc ho]
      simpa only [exceptState] using h
    · rw [stepMember_absent_nonowner MAX st room m hc ho]
      by_cases hex : st.store.memberExists room.id m.userId
      · rw [if_pos hex]
        simpa only [exceptState] using h
      · rw [if_neg hex]
        simpa only [exceptState] using h

theorem countersBelow_processMembers (MAX : Nat) (room : Room) :
    ∀ (ms : List RoomMember) (st : ServerState), countersBelow MAX st.clients →
      countersBelow MAX (exceptState (processMembers MAX room ms st)).clients := by
  intro ms
  induction ms with
  | nil => intro st h; simpa [processMembers, exceptState] using h
  | cons m rest ih =>
    intro st h
    have hstep := countersBelow_stepMember MAX st room m h
    cases hs : stepMember MAX st room m with
    | ok st1 =>
      rw [hs] at hstep
      simp only [exceptState] at hstep
      simp only [processMembers, hs]
      exact ih st1 hstep
    | error st1 =>
      rw [hs] at hstep
      simp only [exceptState] at hstep
      simpa only [processMembers, hs, exceptState] using hstep

theorem countersBelow_processRoom (MAX : Nat) (st : ServerState) (room : Room)
    (h : countersBelow MAX st.clients) :
    countersBelow MAX (exceptState (processRoom MAX st room)).clients := by
  unfold processRoom
  by_cases hex : st.store.roomExists room.id
  · simp only [hex, Bool.not_true, Bool.false_eq_true, if_false]
    have hp := countersBelow_processMembers MAX room (st.store.findMembers room.id) st h
    cases hm : processMembers MAX room (st.store.findMembers room.id) st with
    | error st1 =>
      rw [hm] at hp
      simpa only [exceptState] using hp
    | ok st1 =>
      rw [hm] at hp
      simp only [exceptState] at hp
      dsimp only
      by_cases hz : ((st1.store.findMembers room.id).length == 0) = true
      · rw [if_pos hz]
        simp only [exceptState]
        exact hp
      · rw [if_neg hz]
        simp only [exceptState]
        exact hp
  · simp only [hex, Bool.not_false, if_true, exceptState]
    intro k c hg
    exact h k c (notifyRoomVanished_get_some _ _ _ _ _ hg)

theorem countersBelow_sweepRooms (MAX : Nat) :
    ∀ (rs : List Room) (st : ServerState), countersBelow MAX st.clients →
      countersBelow MAX (sweepRooms MAX rs st).clients := by
  intro rs
  induction rs with
  | nil => intro st h; simpa [sweepRooms] using h
  | cons r rest ih =>
    intro st h
    have hr := countersBelow_processRoom MAX st r h
    cases hp : processRoom MAX st r with
    | ok st1 =>
      rw [hp] at hr
      simp only [exceptState] at hr
      simp only [sweepRooms, hp]
      exact ih st1 hr
    | error st1 =>
      rw [hp] at hr
      simpa only [sweepRooms, hp, exceptState] using hr


/-! ## Claim theorems -/

/-- C10: if transport `t1` joins key `(rid, uid)`, a second transport `t2`
later joins the same key (overwriting the entry), and then `t1`'s
transport closes, the close handler removes the registry entry for that
key — i.e. the Connection installed by `t2` — because removal on close is
keyed by `(roomId, userId)` without checking that the stored transport
handle is the closing one. -/
theorem close_after_rejoin_removes_new_connection (st : ServerState)
    (t1 t2 : Nat) (uid rid : String) (hu : uid ≠ "") (hr : rid ≠ "") :
    clientsGet ((handleJoin (handleJoin st t1 uid rid).1 t2 uid rid).1).clients
        (clientId rid uid) =
      some { ws := t2, userId := uid, roomId := rid, failedHeartbeats := 0,
             lastHeartbeat := st.now } ∧
    clientsGet (handleClose ((handleJoin (handleJoin st t1 uid rid).1 t2 uid rid).1)
        (handleJoin st t1 uid rid).2).clients (clientId rid uid) = none := by
  rw [handleJoin_spec st t1 uid rid hu hr]
  rw [handleJoin_spec _ t2 uid rid hu hr]
  constructor
  · exact clientsGet_set_self _ _ _
  · simp only [handleClose]
    rw [if_pos (by simp [bne_iff_ne, hu, hr])]
    exact clientsGet_delete_self _ _

/-- Witness for C10: with an empty initial state, transports 1 then 2 join
`("R","P")`; transport 1's close handler removes transport 2's entry. -/
theorem close_after_rejoin_removes_new_connection_witness :
    clientsGet ((handleJoin (handleJoin emptyState 1 "P" "R").1 2 "P" "R").1).clients
        (clientId "R" "P") =
      some { ws := 2, userId := "P", roomId := "R", failedHeartbeats := 0,
             lastHeartbeat := 0 } ∧
    clientsGet (handleClose ((handleJoin (handleJoin emptyState 1 "P" "R").1 2 "P" "R").1)
        (handleJoin emptyState 1 "P" "R").2).clients (clientId "R" "P") = none :=
  close_after_rejoin_removes_new_connection emptyState 1 2 "P" "R"
    (by decide) (by decide)

/-- C9 counterexample: in `twoRoomState` both active rooms' owners lack
live connections.  The sweep dissolves `r1` and then — because the dissolve
branch ends in `return`, not `continue` — stops: room `r2`, also active
with an absent owner, is still present after the cycle, so the remaining
active rooms of the cycle were NOT processed. -/
theorem sweep_stops_at_dissolve_counterexample :
    twoRoomState.store.activeRooms =
      [⟨"r1", "R1", "U1", "active"⟩, ⟨"r2", "R2", "U3", "active"⟩] ∧
    clientsGet twoRoomState.clients (clientId "R1" "U1") = none ∧
    clientsGet twoRoomState.clients (clientId "R2" "U3") = none ∧
    (heartbeatCheck 3 twoRoomState).store.roomExists "r1" = false ∧
    (heartbeatCheck 3 twoRoomState).store.roomExists "r2" = true :=
  ⟨rfl, rfl, rfl, rfl, rfl⟩

/-- C9 (amended): when the sweeper dissolves a room, it does not merely
stop processing that room — the `return` ends the whole interval callback,
so the rooms after it in the cycle's snapshot are not processed until a
later cycle. -/
theorem dissolve_aborts_sweep_cycle (MAX : Nat) (st st' : ServerState)
    (r : Room) (rest : List Room)
    (h : processRoom MAX st r = Except.error st') :
    sweepRooms MAX (r :: rest) st = st' := by
  simp [sweepRooms, h]

/-- Witness for the amended C9: dissolving `r1` of `twoRoomState` ends the
cycle with `r2` untouched. -/
theorem dissolve_aborts_sweep_cycle_witness :
    sweepRooms 3 [⟨"r1", "R1", "U1", "active"⟩, ⟨"r2", "R2", "U3", "active"⟩]
      twoRoomState = twoRoomAfterFirst :=
  dissolve_aborts_sweep_cycle 3 twoRoomState twoRoomAfterFirst
    ⟨"r1", "R1", "U1", "active"⟩ [⟨"r2", "R2", "U3", "active"⟩] rfl

/-- C7 counterexample: member `U2` of `probeFailState` has a live registry
entry with a broken transport.  The sweep's probe send to `U2` fails, but
the registry entry is NOT removed: it survives the cycle with its failure
counter incremented to 1 — the claim's "registry entry is removed" only
happens in the room-vanished notification path. -/
theorem probe_send_failure_keeps_entry_counterexample :
    probeFailState.broken = [2] ∧
    clientsGet probeFailState.clients (clientId "R1" "U2") =
      some { ws := 2, userId := "U2", roomId := "R1", failedHeartbeats := 0,
             lastHeartbeat := 0 } ∧
    clientsGet (heartbeatCheck 3 probeFailState).clients (clientId "R1" "U2") =
      some { ws := 2, userId := "U2", roomId := "R1", failedHeartbeats := 1,
             lastHeartbeat := 0 } :=
  ⟨rfl, rfl, rfl⟩

/-- C7 (amended): a failed probe send is only charged to the failure
counter — the registry entry is retained (and the member loop continues
below the threshold); registry-entry removal on a failed or attempted send
occurs only in the room-vanished notification path, which removes the
entry of every member it visits and keeps processing its siblings. -/
theorem send_failure_paths (MAX : Nat) (st : ServerState) (room : Room)
    (m : RoomMember) (c : ClientConnection) (rid : String)
    (ms : List RoomMember)
    (hc : clientsGet st.clients (clientId room.roomId m.userId) = some c)
    (hb : st.broken.contains c.ws = true)
    (hlt : c.failedHeartbeats + 1 < MAX) :
    stepMember MAX st room m =
      Except.ok { st with
        clients := clientsSet st.clients (clientId room.roomId m.userId) { c with failedHeartbeats := c.failedHeartbeats + 1 } } ∧
    ∀ m' ∈ ms, clientsGet (notifyRoomVanished st rid ms).clients
        (clientId rid m'.userId) = none := by
  constructor
  · rw [stepMember_live_below MAX st room m c hc hlt, probeMember_spec]
    simp only [hb, if_true]
  · intro m' hm'
    exact notifyRoomVanished_member_none rid ms st m' hm'

/-- Witness for the amended C7: `U2`'s broken-transport probe in
`probeFailState` keeps (and increments) its entry, and the room-vanished
loop deletes the entries of both members it notifies. -/
theorem send_failure_paths_witness :
    stepMember 3 probeFailState ⟨"r1", "R1", "U1", "active"⟩ ⟨"r1", "U2", "member"⟩ =
      Except.ok { probeFailState with
        clients := clientsSet probeFailState.clients (clientId "R1" "U2") ⟨2, "U2", "R1", 1, 0⟩ } ∧
    ∀ m' ∈ [RoomMember.mk "r1" "U1" "owner", RoomMember.mk "r1" "U2" "member"],
      clientsGet (notifyRoomVanished probeFailState "R1"
          [RoomMember.mk "r1" "U1" "owner", RoomMember.mk "r1" "U2" "member"]).clients
        (clientId "R1" m'.userId) = none :=
  send_failure_paths 3 probeFailState ⟨"r1", "R1", "U1", "active"⟩
    ⟨"r1", "U2", "member"⟩ ⟨2, "U2", "R1", 0, 0⟩ "R1"
    [⟨"r1", "U1", "owner"⟩, ⟨"r1", "U2", "member"⟩] rfl rfl (by decide)

/-- C6 counterexample: in `drawAbortState`, `A` broadcasts a `draw_event`
to recipients `B` (broken transport, first in registry order) and `C`
(live, healthy).  The send to `B` throws; because the `forEach` body has no
per-recipient `try`, the exception aborts the traversal and `C` — a live,
unbroken recipient of the same broadcast — receives nothing. -/
theorem broadcast_abort_counterexample :
    clientsGet drawAbortState.clients (clientId "R1" "C") =
      some { ws := 3, userId := "C", roomId := "R1", failedHeartbeats := 0,
             lastHeartbeat := 0 } ∧
    drawAbortState.broken = [2] ∧
    (handleDrawEvent drawAbortState ⟨some "A", some "R1"⟩ "p").sent = [] ∧
    ¬ (3, Frame.drawEvent "p") ∈
        (handleDrawEvent drawAbortState ⟨some "A", some "R1"⟩ "p").sent :=
  ⟨rfl, rfl, rfl, by decide⟩

/-- C6 (amended): a `draw_event` delivery failure does not propagate as an
error to the sender (the outer catch swallows it, and the registry, store
and broken set are untouched), but it does abort delivery to the remaining
recipients: exactly the longest broken-free prefix of the recipient list,
in registry order, is delivered. -/
theorem broadcast_delivers_prefix_until_failure (st : ServerState)
    (uid rid payload : String) (hr : rid ≠ "") :
    handleDrawEvent st ⟨some uid, some rid⟩ payload =
      { st with sent := st.sent ++
                  (((st.clients.map Prod.snd).filter
                      (fun c => c.roomId == rid && some c.userId != some uid)).takeWhile
                    (fun c => !st.broken.contains c.ws)).map
                    (fun c => (c.ws, Frame.drawEvent payload)) } := by
  rw [handleDrawEvent_joined st (some uid) rid payload hr, sendToRecipients_spec]

/-- Witness for the amended C6: `A`'s broadcast in `drawAbortState`
delivers to the empty prefix (recipient `B` is broken), leaving the state
otherwise unchanged. -/
theorem broadcast_delivers_prefix_until_failure_witness :
    handleDrawEvent drawAbortState ⟨some "A", some "R1"⟩ "p" =
      { drawAbortState with sent := drawAbortState.sent ++
                              (((drawAbortState.clients.map Prod.snd).filter
                                  (fun c => c.roomId == "R1" && some c.userId != some "A")).takeWhile
                                (fun c => !drawAbortState.broken.contains c.ws)).map
                                (fun c => (c.ws, Frame.drawEvent "p")) } :=
  broadcast_delivers_prefix_until_failure drawAbortState "A" "R1" "p" (by decide)

/-- C5: a `draw_event` sent by a joined connection in room `rid` is
delivered, payload unchanged, to every Connection Registry entry whose
room equals `rid` and whose participant differs from the sender — in
registry order — and never to the sender itself (the sender is excluded by
the recipient filter): shown here under the claim's implicit assumption
that no transport is broken (delivery failure is C6's concern). -/
theorem draw_event_broadcast_spec (st : ServerState)
    (uid rid payload : String) (hr : rid ≠ "") (hok : st.broken = []) :
    (handleDrawEvent st ⟨some uid, some rid⟩ payload).sent =
      st.sent ++ ((st.clients.map Prod.snd).filter
          (fun c => c.roomId == rid && some c.userId != some uid)).map
        (fun c => (c.ws, Frame.drawEvent payload)) ∧
    ∀ c ∈ (st.clients.map Prod.snd).filter
        (fun c => c.roomId == rid && some c.userId != some uid),
      c.roomId = rid ∧ c.userId ≠ uid := by
  constructor
  · rw [handleDrawEvent_joined st (some uid) rid payload hr, sendToRecipients_spec]
    rw [hok, takeWhile_nil_broken]
  · intro c hcmem
    have hpred := (List.mem_filter.mp hcmem).2
    simp only [Bool.and_eq_true, beq_iff_eq, bne_iff_ne, ne_eq] at hpred
    exact ⟨hpred.1, fun he => hpred.2 (by rw [he])⟩

/-- Witness for C5: sender `A` in a three-member room with healthy
transports; the broadcast reaches exactly `B` and `C`. -/
theorem draw_event_broadcast_spec_witness :
    (handleDrawEvent drawHealthyState ⟨some "A", some "R1"⟩ "p").sent =
      drawHealthyState.sent ++ ((drawHealthyState.clients.map Prod.snd).filter
          (fun c => c.roomId == "R1" && some c.userId != some "A")).map
        (fun c => (c.ws, Frame.drawEvent "p")) ∧
    ∀ c ∈ (drawHealthyState.clients.map Prod.snd).filter
        (fun c => c.roomId == "R1" && some c.userId != some "A"),
      c.roomId = "R1" ∧ c.userId ≠ "A" :=
  draw_event_broadcast_spec drawHealthyState "A" "R1" "p" (by decide) rfl

/-- C1: at the moment the sweep's member loop examines the owner of an
active room and finds no live Connection under the owner's key, the room
is dissolved within that same cycle — the room row (and by cascade its
memberships) is deleted from the external store and the callback returns,
making the dissolution the cycle's final action — and every other member
that still has a live Connection over an unbroken transport at that moment
is sent exactly one `room_deleted` frame carrying reason
`owner_disconnected` (assuming one membership row per user and no aliasing
of transport handles within the room). -/
theorem owner_absent_dissolves_and_notifies_once (MAX : Nat) (st : ServerState)
    (room : Room) (m : RoomMember)
    (ho : m.userId = room.ownerId)
    (hab : clientsGet st.clients (clientId room.roomId room.ownerId) = none) :
    ∃ st', stepMember MAX st room m = Except.error st' ∧
      st'.store.roomExists room.id = false ∧
      st'.store.findMembers room.id = [] ∧
      ∀ (u : String) (c : ClientConnection),
        u ≠ room.ownerId →
        clientsGet st.clients (clientId room.roomId u) = some c →
        st.broken.contains c.ws = false →
        (st.store.members.filter
          (fun x => x.roomId == room.id && x.userId == u)).length = 1 →
        (∀ (u' : String) (c' : ClientConnection),
          clientsGet st.clients (clientId room.roomId u') = some c' →
          c'.ws = c.ws → u' = u) →
        countFrames st'.sent c.ws
            (Frame.roomDeleted room.roomId (some "owner_disconnected")) =
          countFrames st.sent c.ws
            (Frame.roomDeleted room.roomId (some "owner_disconnected")) + 1 := by
  have hab' : clientsGet st.clients (clientId room.roomId m.userId) = none := by
    rw [ho]; exact hab
  rw [stepMember_absent_owner MAX st room m hab' ho]
  refine ⟨_, rfl, ?_, ?_, ?_⟩
  · exact Store.roomExists_deleteRoom_self _ _
  · exact Store.findMembers_deleteRoom_self _ _
  · intro u c hne hc hok hrows hws
    dsimp only
    rw [countFrames_append]
    rw [notifyDeltas_count_one st.clients st.broken room.roomId
      "owner_disconnected" u c hc hok hws]
    rw [List.filter_filter]
    have hfc : ∀ mm ∈ st.store.members,
        ((fun x => x.userId == u) mm &&
          (fun mm => mm.roomId == room.id && mm.userId != m.userId) mm) =
        ((fun x => x.roomId == room.id && x.userId == u) mm) := by
      intro mm _
      by_cases hmu : mm.userId = u
      · have hmne : mm.userId ≠ m.userId := by
          rw [hmu, ho]; exact hne
        have hune : ¬ u = m.userId := fun h => hne (h.trans ho)
        simp [hmu, bne_iff_ne, hmne, Bool.and_comm, hune]
      · have hbe : (mm.userId == u) = false := by simp [hmu]
        simp [hbe]
    rw [List.filter_congr hfc, hrows]

/-- Witness for C1: room `r1`'s owner `U1` is absent in
`ownerAbsentState`; the sweep step dissolves the room and member `U2`
(live, unbroken, one membership row, unshared transport) is notified
exactly once. -/
theorem owner_absent_dissolves_and_notifies_once_witness :
    ∃ st', stepMember 3 ownerAbsentState ⟨"r1", "R1", "U1", "active"⟩
        ⟨"r1", "U1", "owner"⟩ = Except.error st' ∧
      st'.store.roomExists "r1" = false ∧
      st'.store.findMembers "r1" = [] ∧
      ∀ (u : String) (c : ClientConnection),
        u ≠ "U1" →
        clientsGet ownerAbsentState.clients (clientId "R1" u) = some c →
        ownerAbsentState.broken.contains c.ws = false →
        (ownerAbsentState.store.members.filter
          (fun x => x.roomId == "r1" && x.userId == u)).length = 1 →
        (∀ (u' : String) (c' : ClientConnection),
          clientsGet ownerAbsentState.clients (clientId "R1" u') = some c' →
          c'.ws = c.ws → u' = u) →
        countFrames st'.sent c.ws
            (Frame.roomDeleted "R1" (some "owner_disconnected")) =
          countFrames ownerAbsentState.sent c.ws
            (Frame.roomDeleted "R1" (some "owner_disconnected")) + 1 :=
  owner_absent_dissolves_and_notifies_once 3 ownerAbsentState
    ⟨"r1", "R1", "U1", "active"⟩ ⟨"r1", "U1", "owner"⟩ rfl rfl

/-- C2 counterexample: `ownerTimeoutState` is the spec's own §8 scenario —
room `R1`, owner `U1` one missed probe short of the threshold 3, member
`U2` live and healthy.  The sweep probes `U1` (third consecutive miss) and
dissolves the room: the room and its memberships are gone from the store
and `U2` is sent `room_deleted`/`owner_timeout`, but `U2`'s Connection
Registry entry — a participant of the dissolved room, live at dissolution
time — is still present afterwards, contradicting "no Connection Registry
entries remain for any participant of that room". -/
theorem dissolution_leaves_member_entries_counterexample :
    (heartbeatCheck 3 ownerTimeoutState).store.rooms = [] ∧
    (heartbeatCheck 3 ownerTimeoutState).store.members = [] ∧
    countFrames (heartbeatCheck 3 ownerTimeoutState).sent 2
      (Frame.roomDeleted "R1" (some "owner_timeout")) = 1 ∧
    clientsGet (heartbeatCheck 3 ownerTimeoutState).clients (clientId "R1" "U2") =
      some { ws := 2, userId := "U2", roomId := "R1", failedHeartbeats := 0,
             lastHeartbeat := 0 } :=
  ⟨rfl, rfl, rfl, rfl⟩

/-- C2 (amended): after a dissolution the room row and all its membership
rows are absent from the external store (the row by deletion, the
memberships by the schema's cascade), and in the owner-timeout branch the
owner's own registry entry is removed — but the registry entries of the
other participants, including non-owner members live at dissolution time,
are NOT removed: they survive unchanged (in the owner-absent branch the
registry is not touched at all). -/
theorem dissolution_cleanup_extent :
    (∀ (MAX : Nat) (st : ServerState) (room : Room) (m : RoomMember)
        (c : ClientConnection),
      m.userId = room.ownerId →
      clientsGet st.clients (clientId room.roomId room.ownerId) = some c →
      c.failedHeartbeats + 1 ≥ MAX →
      ∃ st', stepMember MAX st room m = Except.error st' ∧
        st'.store.roomExists room.id = false ∧
        st'.store.findMembers room.id = [] ∧
        clientsGet st'.clients (clientId room.roomId room.ownerId) = none ∧
        ∀ u, u ≠ room.ownerId →
          clientsGet st'.clients (clientId room.roomId u) =
            clientsGet st.clients (clientId room.roomId u)) ∧
    (∀ (MAX : Nat) (st : ServerState) (room : Room) (m : RoomMember),
      m.userId = room.ownerId →
      clientsGet st.clients (clientId room.roomId room.ownerId) = none →
      ∃ st', stepMember MAX st room m = Except.error st' ∧
        st'.store.roomExists room.id = false ∧
        st'.store.findMembers room.id = [] ∧
        st'.clients = st.clients) := by
  constructor
  · intro MAX st room m c ho hc hge
    have hc' : clientsGet st.clients (clientId room.roomId m.userId) = some c := by
      rw [ho]; exact hc
    obtain ⟨st', heq, hcl, hst, -, -⟩ :=
      stepMember_live_at_owner MAX st room m c hc' hge ho
    refine ⟨st', heq, ?_, ?_, ?_, ?_⟩
    · rw [hst]; exact Store.roomExists_deleteRoom_self _ _
    · rw [hst]; exact Store.findMembers_deleteRoom_self _ _
    · rw [hcl, ← ho]
      exact clientsGet_delete_self _ _
    · intro u hu
      rw [hcl]
      have hne : clientId room.roomId u ≠ clientId room.roomId m.userId :=
        fun he => hu ((clientId_inj_right he).trans ho)
      rw [clientsGet_delete_ne _ _ _ hne, clientsGet_set_ne _ _ _ _ hne]
  · intro MAX st room m ho hab
    have hab' : clientsGet st.clients (clientId room.roomId m.userId) = none := by
      rw [ho]; exact hab
    rw [stepMember_absent_owner MAX st room m hab' ho]
    refine ⟨_, rfl, ?_, ?_, rfl⟩
    · exact Store.roomExists_deleteRoom_self _ _
    · exact Store.findMembers_deleteRoom_self _ _

/-- Witness for the amended C2, first at the owner-timeout branch of the
spec's §8 scenario, then at the owner-absent branch. -/
theorem dissolution_cleanup_extent_witness :
    (∃ st', stepMember 3 ownerTimeoutState ⟨"r1", "R1", "U1", "active"⟩
        ⟨"r1", "U1", "owner"⟩ = Except.error st' ∧
      st'.store.roomExists "r1" = false ∧
      st'.store.findMembers "r1" = [] ∧
      clientsGet st'.clients (clientId "R1" "U1") = none ∧
      ∀ u, u ≠ "U1" →
        clientsGet st'.clients (clientId "R1" u) =
          clientsGet ownerTimeoutState.clients (clientId "R1" u)) ∧
    (∃ st', stepMember 3 ownerAbsentState ⟨"r1", "R1", "U1", "active"⟩
        ⟨"r1", "U1", "owner"⟩ = Except.error st' ∧
      st'.store.roomExists "r1" = false ∧
      st'.store.findMembers "r1" = [] ∧
      st'.clients = ownerAbsentState.clients) :=
  ⟨dissolution_cleanup_extent.1 3 ownerTimeoutState ⟨"r1", "R1", "U1", "active"⟩
      ⟨"r1", "U1", "owner"⟩ ⟨1, "U1", "R1", 2, 0⟩ rfl rfl (by decide),
   dissolution_cleanup_extent.2 3 ownerAbsentState ⟨"r1", "R1", "U1", "active"⟩
      ⟨"r1", "U1", "owner"⟩ rfl rfl⟩

/-! ## Handler registry invariants -/

theorem handleDrawEvent_clients (st : ServerState) (cs : ConnState) (p : String) :
    (handleDrawEvent st cs p).clients = st.clients := by
  rcases cs with ⟨su, sr⟩
  cases sr with
  | none => rfl
  | some rid =>
    by_cases hr : (rid != "") = true
    · simp only [handleDrawEvent]
      rw [if_pos hr, sendToRecipients_spec]
    · simp only [handleDrawEvent]
      rw [if_neg hr]

theorem handleClose_get_some (st : ServerState) (cs : ConnState) (k : String)
    (c : ClientConnection)
    (h : clientsGet (handleClose st cs).clients k = some c) :
    clientsGet st.clients k = some c := by
  rcases cs with ⟨su, sr⟩
  cases su with
  | none => exact h
  | some uid =>
    cases sr with
    | none => exact h
    | some rid =>
      by_cases hcond : (uid != "" && rid != "") = true
      · simp only [handleClose, hcond, if_true] at h
        by_cases hk : k = clientId rid uid
        · subst hk
          rw [clientsGet_delete_self] at h
          exact Option.noConfusion h
        · rwa [clientsGet_delete_ne _ _ _ hk] at h
      · simpa only [handleClose, hcond, Bool.false_eq_true, if_false] using h

theorem handleHeartbeat_keeps_entries (st : ServerState) (cs : ConnState)
    (w : Nat) (k : String)
    (h : (clientsGet st.clients k).isSome) :
    (clientsGet (handleHeartbeat st cs w).clients k).isSome := by
  rcases cs with ⟨su, sr⟩
  cases su with
  | none => exact h
  | some uid =>
    cases sr with
    | none => exact h
    | some rid =>
      by_cases hcond : (uid != "" && rid != "") = true
      · cases hc : clientsGet st.clients (clientId rid uid) with
        | none => simpa only [handleHeartbeat, hcond, if_true, hc] using h
        | some c =>
          simp only [handleHeartbeat, hcond, if_true, hc]
          rw [trySend_fst]
          by_cases hk : k = clientId rid uid
          · subst hk
            rw [clientsGet_set_self]
            rfl
          · rwa [clientsGet_set_ne _ _ _ _ hk]
      · simpa only [handleHeartbeat, hcond, Bool.false_eq_true, if_false] using h

/-- A sweep member step never rewinds a failure counter: an entry that
survives it is unchanged or has its counter incremented by the probe. -/
theorem stepMember_counter_mono (MAX : Nat) (st : ServerState) (room : Room)
    (m : RoomMember) (k : String) (c c' : ClientConnection)
    (hk : clientsGet st.clients k = some c)
    (hk' : clientsGet (exceptState (stepMember MAX st room m)).clients k = some c') :
    c' = c ∨ c' = { c with failedHeartbeats := c.failedHeartbeats + 1 } := by
  cases hc : clientsGet st.clients (clientId room.roomId m.userId) with
  | some c0 =>
    by_cases hge : c0.failedHeartbeats + 1 ≥ MAX
    · by_cases ho : m.userId = room.ownerId
      · obtain ⟨st', heq, hcl, -, -, -⟩ :=
          stepMember_live_at_owner MAX st room m c0 hc hge ho
        rw [heq] at hk'
        simp only [exceptState] at hk'
        rw [hcl] at hk'
        by_cases hkc : k = clientId room.roomId m.userId
        · subst hkc
          rw [clientsGet_delete_self] at hk'
          exact Option.noConfusion hk'
        · rw [clientsGet_delete_ne _ _ _ hkc,
            clientsGet_set_ne _ _ _ _ hkc, hk] at hk'
          exact Or.inl (Option.some.inj hk').symm
      · obtain ⟨st', heq, hcl, -, -, -⟩ :=
          stepMember_live_at_nonowner MAX st room m c0 hc hge ho
        rw [heq] at hk'
        simp only [exceptState] at hk'
        rw [hcl] at hk'
        by_cases hkc : k = clientId room.roomId m.userId
        · subst hkc
          rw [clientsGet_delete_self] at hk'
          exact Option.noConfusion hk'
        · rw [clientsGet_delete_ne _ _ _ hkc,
            clientsGet_set_ne _ _ _ _ hkc, hk] at hk'
          exact Or.inl (Option.some.inj hk').symm
    · rw [stepMember_live_below MAX st room m c0 hc (by omega)] at hk'
      simp only [exceptState] at hk'
      rw [probeMember_clients] at hk'
      by_cases hkc : k = clientId room.roomId m.userId
      · subst hkc
        rw [clientsGet_set_self] at hk'
        rw [hc] at hk
        have hcc : c0 = c := Option.some.inj hk
        subst hcc
        exact Or.inr (Option.some.inj hk').symm
      · rw [clientsGet_set_ne _ _ _ _ hkc, hk] at hk'
        exact Or.inl (Option.some.inj hk').symm
  | none =>
    by_cases ho : m.userId = room.ownerId
    · rw [stepMember_absent_owner MAX st room m hc ho] at hk'
      simp only [exceptState] at hk'
      rw [hk] at hk'
      exact Or.inl (Option.some.inj hk').symm
    · rw [stepMember_absent_nonowner MAX st room m hc ho] at hk'
      by_cases hex : st.store.memberExists room.id m.userId
      · rw [if_pos hex] at hk'
        simp only [exceptState] at hk'
        rw [hk] at hk'
        exact Or.inl (Option.some.inj hk').symm
      · rw [if_neg hex] at hk'
        simp only [exceptState] at hk'
        rw [hk] at hk'
        exact Or.inl (Option.some.inj hk').symm

/-- C4: for every member with a live Connection examined by the sweeper,
the probe increments that Connection's failure counter by exactly 1
immediately — before any ack is known, whether or not the send throws (the
counter counts probes sent since the last accepted ack) — and the counter
is reset to 0 only by an accepted ack (`heartbeat` handler) or by a fresh
`join` replacing the Connection: the `draw_event` handler leaves the
registry untouched, the close handler never rewrites a surviving entry,
and a sweep step never lowers a surviving counter. -/
theorem probe_optimistic_accounting :
    (∀ (st : ServerState) (cid : String) (c : ClientConnection),
      clientsGet (probeMember st cid c).clients cid =
        some { c with failedHeartbeats := c.failedHeartbeats + 1 }) ∧
    (∀ (MAX : Nat) (st : ServerState) (room : Room) (m : RoomMember)
        (c : ClientConnection),
      clientsGet st.clients (clientId room.roomId m.userId) = some c →
      stepMember MAX st room m =
        thresholdCheck MAX (probeMember st (clientId room.roomId m.userId) c)
          room m) ∧
    (∀ (st : ServerState) (cs : ConnState) (p : String),
      (handleDrawEvent st cs p).clients = st.clients) ∧
    (∀ (st : ServerState) (cs : ConnState) (k : String) (c : ClientConnection),
      clientsGet (handleClose st cs).clients k = some c →
      clientsGet st.clients k = some c) ∧
    (∀ (MAX : Nat) (st : ServerState) (room : Room) (m : RoomMember)
        (k : String) (c c' : ClientConnection),
      clientsGet st.clients k = some c →
      clientsGet (exceptState (stepMember MAX st room m)).clients k = some c' →
      c' = c ∨ c' = { c with failedHeartbeats := c.failedHeartbeats + 1 }) ∧
    (∀ (st : ServerState) (uid rid : String) (w : Nat) (c : ClientConnection),
      uid ≠ "" → rid ≠ "" →
      clientsGet st.clients (clientId rid uid) = some c →
      clientsGet (handleHeartbeat st ⟨some uid, some rid⟩ w).clients
          (clientId rid uid) =
        some { c with failedHeartbeats := 0, lastHeartbeat := st.now }) ∧
    (∀ (st : ServerState) (w : Nat) (uid rid : String),
      uid ≠ "" → rid ≠ "" →
      clientsGet (handleJoin st w uid rid).1.clients (clientId rid uid) =
        some { ws := w, userId := uid, roomId := rid, failedHeartbeats := 0,
               lastHeartbeat := st.now }) := by
  refine ⟨?_, ?_, ?_, ?_, ?_, ?_, ?_⟩
  · intro st cid c
    exact probeMember_get_self st cid c
  · intro MAX st room m c hc
    exact stepMember_live MAX st room m c hc
  · intro st cs p
    exact handleDrawEvent_clients st cs p
  · intro st cs k c h
    exact handleClose_get_some st cs k c h
  · intro MAX st room m k c c' hk hk'
    exact stepMember_counter_mono MAX st room m k c c' hk hk'
  · intro st uid rid w c hu hr hc
    rw [handleHeartbeat_ack st uid rid w c hu hr hc]
    exact clientsGet_set_self _ _ _
  · intro st w uid rid hu hr
    rw [handleJoin_spec st w uid rid hu hr]
    exact clientsGet_set_self _ _ _

/-- Witness for C4: every conjunct instantiated at concrete inputs built
from `probeFailState` (whose member `U2` has a broken transport, showing
the increment is charged even when the send throws). -/
theorem probe_optimistic_accounting_witness :
    clientsGet (probeMember probeFailState (clientId "R1" "U2")
        ⟨2, "U2", "R1", 0, 0⟩).clients (clientId "R1" "U2") =
      some { ws := 2, userId := "U2", roomId := "R1", failedHeartbeats := 1,
             lastHeartbeat := 0 } ∧
    stepMember 3 probeFailState ⟨"r1", "R1", "U1", "active"⟩ ⟨"r1", "U2", "member"⟩ =
      thresholdCheck 3 (probeMember probeFailState (clientId "R1" "U2")
        ⟨2, "U2", "R1", 0, 0⟩) ⟨"r1", "R1", "U1", "active"⟩ ⟨"r1", "U2", "member"⟩ ∧
    (handleDrawEvent probeFailState ⟨some "U1", some "R1"⟩ "p").clients =
      probeFailState.clients ∧
    clientsGet probeFailState.clients (clientId "R1" "U1") =
      some { ws := 1, userId := "U1", roomId := "R1", failedHeartbeats := 0,
             lastHeartbeat := 0 } ∧
    clientsGet (handleHeartbeat probeFailState ⟨some "U2", some "R1"⟩ 2).clients
        (clientId "R1" "U2") =
      some { ws := 2, userId := "U2", roomId := "R1", failedHeartbeats := 0,
             lastHeartbeat := 7 } ∧
    clientsGet (handleJoin probeFailState 9 "U9" "R1").1.clients
        (clientId "R1" "U9") =
      some { ws := 9, userId := "U9", roomId := "R1", failedHeartbeats := 0,
             lastHeartbeat := 7 } :=
  ⟨probe_optimistic_accounting.1 probeFailState (clientId "R1" "U2")
      ⟨2, "U2", "R1", 0, 0⟩,
   probe_optimistic_accounting.2.1 3 probeFailState ⟨"r1", "R1", "U1", "active"⟩
      ⟨"r1", "U2", "member"⟩ ⟨2, "U2", "R1", 0, 0⟩ rfl,
   probe_optimistic_accounting.2.2.1 probeFailState ⟨some "U1", some "R1"⟩ "p",
   rfl,
   probe_optimistic_accounting.2.2.2.2.2.1 probeFailState "U2" "R1" 2
      ⟨2, "U2", "R1", 0, 0⟩ (by decide) (by decide) rfl,
   probe_optimistic_accounting.2.2.2.2.2.2 probeFailState 9 "U9" "R1"
      (by decide) (by decide)⟩

/-- C3: a `heartbeat` ack received after N probes with N below the
configured maximum resets the Connection's failure counter to 0; eviction
(non-owner) or dissolution (owner) is triggered exactly when the counter
reaches the maximum, and only during a sweep step — below the threshold a
sweep step only probes (no eviction, store unchanged), the `draw_event`
and `heartbeat` handlers never remove an entry, and a whole sweep cycle
keeps every surviving counter strictly below the maximum, so no state at
the maximum survives to do anything but be evicted or dissolved in the
step that created it; a fresh `join` replaces the Connection with counter
0. -/
theorem heartbeat_threshold_state_machine :
    (∀ (MAX : Nat) (st : ServerState) (uid rid : String) (w : Nat)
        (c : ClientConnection) (N : Nat),
      uid ≠ "" → rid ≠ "" →
      clientsGet st.clients (clientId rid uid) = some c →
      c.failedHeartbeats = N → N < MAX →
      clientsGet (handleHeartbeat st ⟨some uid, some rid⟩ w).clients
          (clientId rid uid) =
        some { c with failedHeartbeats := 0, lastHeartbeat := st.now }) ∧
    (∀ (MAX : Nat) (st : ServerState) (room : Room) (m : RoomMember)
        (c : ClientConnection),
      clientsGet st.clients (clientId room.roomId m.userId) = some c →
      c.failedHeartbeats + 1 < MAX →
      stepMember MAX st room m =
          Except.ok (probeMember st (clientId room.roomId m.userId) c) ∧
        clientsGet (probeMember st (clientId room.roomId m.userId) c).clients
            (clientId room.roomId m.userId) =
          some { c with failedHeartbeats := c.failedHeartbeats + 1 } ∧
        (probeMember st (clientId room.roomId m.userId) c).store = st.store) ∧
    (∀ (MAX : Nat) (st : ServerState) (room : Room) (m : RoomMember)
        (c : ClientConnection),
      clientsGet st.clients (clientId room.roomId m.userId) = some c →
      c.failedHeartbeats + 1 ≥ MAX → m.userId ≠ room.ownerId →
      ∃ st', stepMember MAX st room m = Except.ok st' ∧
        clientsGet st'.clients (clientId room.roomId m.userId) = none ∧
        st'.store.memberExists room.id m.userId = false ∧
        st'.store.rooms = st.store.rooms) ∧
    (∀ (MAX : Nat) (st : ServerState) (room : Room) (m : RoomMember)
        (c : ClientConnection),
      clientsGet st.clients (clientId room.roomId m.userId) = some c →
      c.failedHeartbeats + 1 ≥ MAX → m.userId = room.ownerId →
      ∃ st', stepMember MAX st room m = Except.error st' ∧
        st'.store.roomExists room.id = false) ∧
    (∀ (MAX : Nat) (st : ServerState),
      countersBelow MAX st.clients →
      countersBelow MAX (heartbeatCheck MAX st).clients) ∧
    (∀ (st : ServerState) (cs : ConnState) (p : String),
      (handleDrawEvent st cs p).clients = st.clients) ∧
    (∀ (st : ServerState) (cs : ConnState) (w : Nat) (k : String),
      (clientsGet st.clients k).isSome →
      (clientsGet (handleHeartbeat st cs w).clients k).isSome) ∧
    (∀ (st : ServerState) (w : Nat) (uid rid : String),
      uid ≠ "" → rid ≠ "" →
      clientsGet (handleJoin st w uid rid).1.clients (clientId rid uid) =
        some { ws := w, userId := uid, roomId := rid, failedHeartbeats := 0,
               lastHeartbeat := st.now }) := by
  refine ⟨?_, ?_, ?_, ?_, ?_, ?_, ?_, ?_⟩
  · intro MAX st uid rid w c N hu hr hc hN hNlt
    rw [handleHeartbeat_ack st uid rid w c hu hr hc]
    exact clientsGet_set_self _ _ _
  · intro MAX st room m c hc hlt
    exact ⟨stepMember_live_below MAX st room m c hc hlt,
      probeMember_get_self _ _ _, probeMember_store _ _ _⟩
  · intro MAX st room m c hc hge hno
    obtain ⟨st', heq, hcl, hst, -, -⟩ :=
      stepMember_live_at_nonowner MAX st room m c hc hge hno
    refine ⟨st', heq, ?_, ?_, ?_⟩
    · rw [hcl]
      exact clientsGet_delete_self _ _
    · rw [hst]
      exact Store.memberExists_deleteMembership_self _ _ _
    · rw [hst]
      rfl
  · intro MAX st room m c hc hge ho
    obtain ⟨st', heq, -, hst, -, -⟩ :=
      stepMember_live_at_owner MAX st room m c hc hge ho
    refine ⟨st', heq, ?_⟩
    rw [hst]
    exact Store.roomExists_deleteRoom_self _ _
  · intro MAX st h
    exact countersBelow_sweepRooms MAX st.store.activeRooms st h
  · intro st cs p
    exact handleDrawEvent_clients st cs p
  · intro st cs w k h
    exact handleHeartbeat_keeps_entries st cs w k h
  · intro st w uid rid hu hr
    rw [handleJoin_spec st w uid rid hu hr]
    exact clientsGet_set_self _ _ _

/-- Witness for C3: each conjunct at a concrete input — the ack reset on
owner `U1` at two missed probes, the harmless below-threshold probe, the
third-probe eviction of member `U2`, the third-probe dissolution for owner
`U1`, the cycle-level counter bound from the empty state, the registry
neutrality of the handlers, and a fresh join. -/
theorem heartbeat_threshold_state_machine_witness :
    clientsGet (handleHeartbeat ownerTimeoutState ⟨some "U1", some "R1"⟩ 1).clients
        (clientId "R1" "U1") =
      some { ws := 1, userId := "U1", roomId := "R1", failedHeartbeats := 0,
             lastHeartbeat := 5 } ∧
    (stepMember 3 probeFailState ⟨"r1", "R1", "U1", "active"⟩ ⟨"r1", "U1", "owner"⟩ =
        Except.ok (probeMember probeFailState (clientId "R1" "U1")
          ⟨1, "U1", "R1", 0, 0⟩) ∧
      clientsGet (probeMember probeFailState (clientId "R1" "U1")
          ⟨1, "U1", "R1", 0, 0⟩).clients (clientId "R1" "U1") =
        some { ws := 1, userId := "U1", roomId := "R1", failedHeartbeats := 1,
               lastHeartbeat := 0 } ∧
      (probeMember probeFailState (clientId "R1" "U1")
          ⟨1, "U1", "R1", 0, 0⟩).store = probeFailState.store) ∧
    (∃ st', stepMember 3 memberTimeoutState ⟨"r1", "R1", "U1", "active"⟩
          ⟨"r1", "U2", "member"⟩ = Except.ok st' ∧
      clientsGet st'.clients (clientId "R1" "U2") = none ∧
      st'.store.memberExists "r1" "U2" = false ∧
      st'.store.rooms = memberTimeoutState.store.rooms) ∧
    (∃ st', stepMember 3 ownerTimeoutState ⟨"r1", "R1", "U1", "active"⟩
          ⟨"r1", "U1", "owner"⟩ = Except.error st' ∧
      st'.store.roomExists "r1" = false) ∧
    countersBelow 3 (heartbeatCheck 3 emptyState).clients ∧
    (handleDrawEvent memberTimeoutState ⟨some "U1", some "R1"⟩ "p").clients =
      memberTimeoutState.clients ∧
    (clientsGet (handleHeartbeat memberTimeoutState ⟨some "U2", some "R1"⟩ 2).clients
        (clientId "R1" "U1")).isSome ∧
    clientsGet (handleJoin ownerTimeoutState 9 "U9" "R1").1.clients
        (clientId "R1" "U9") =
      some { ws := 9, userId := "U9", roomId := "R1", failedHeartbeats := 0,
             lastHeartbeat := 5 } :=
  ⟨heartbeat_threshold_state_machine.1 3 ownerTimeoutState "U1" "R1" 1
      ⟨1, "U1", "R1", 2, 0⟩ 2 (by decide) (by decide) rfl rfl (by decide),
   heartbeat_threshold_state_machine.2.1 3 probeFailState
      ⟨"r1", "R1", "U1", "active"⟩ ⟨"r1", "U1", "owner"⟩
      ⟨1, "U1", "R1", 0, 0⟩ rfl (by decide),
   heartbeat_threshold_state_machine.2.2.1 3 memberTimeoutState
      ⟨"r1", "R1", "U1", "active"⟩ ⟨"r1", "U2", "member"⟩
      ⟨2, "U2", "R1", 2, 0⟩ rfl (by decide) (by decide),
   heartbeat_threshold_state_machine.2.2.2.1 3 ownerTimeoutState
      ⟨"r1", "R1", "U1", "active"⟩ ⟨"r1", "U1", "owner"⟩
      ⟨1, "U1", "R1", 2, 0⟩ rfl (by decide) rfl,
   heartbeat_threshold_state_machine.2.2.2.2.1 3 emptyState
      (fun k c h => Option.noConfusion h),
   heartbeat_threshold_state_machine.2.2.2.2.2.1 memberTimeoutState
      ⟨some "U1", some "R1"⟩ "p",
   heartbeat_threshold_state_machine.2.2.2.2.2.2.1 memberTimeoutState
      ⟨some "U2", some "R1"⟩ 2 "R1_U1" rfl,
   heartbeat_threshold_state_machine.2.2.2.2.2.2.2 ownerTimeoutState 9 "U9" "R1"
      (by decide) (by decide)⟩

/-! ## Join-sequence lemmas -/

theorem handleJoin_now (st : ServerState) (w : Nat) (uid rid : String) :
    (handleJoin st w uid rid).1.now = st.now := by
  simp only [handleJoin]
  split
  · rw [trySend_fst]
  · rfl

theorem applyJoins_append (uid rid : String) :
    ∀ (l l' : List Nat) (st : ServerState),
      applyJoins st uid rid (l ++ l') =
        applyJoins (applyJoins st uid rid l) uid rid l' := by
  intro l
  induction l with
  | nil => intro l' st; rfl
  | cons w rest ih =>
    intro l' st
    simp only [List.cons_append, applyJoins]
    exact ih l' _

theorem applyJoins_now (uid rid : String) :
    ∀ (l : List Nat) (st : ServerState),
      (applyJoins st uid rid l).now = st.now := by
  intro l
  induction l with
  | nil => intro st; rfl
  | cons w rest ih =>
    intro st
    simp only [applyJoins]
    rw [ih, handleJoin_now]

theorem applyJoins_countKey (uid rid : String) (hu : uid ≠ "") (hr : rid ≠ "") :
    ∀ (l : List Nat) (st : ServerState),
      countKey st.clients (clientId rid uid) ≤ 1 →
      countKey (applyJoins st uid rid l).clients (clientId rid uid) ≤ 1 := by
  intro l
  induction l with
  | nil => intro st h; exact h
  | cons w rest ih =>
    intro st h
    simp only [applyJoins]
    apply ih
    rw [handleJoin_spec st w uid rid hu hr]
    exact countKey_le_one_of_set _ _ _ h

/-- C8: after any sequence of accepted `join` frames on the same
`(room, participant)` key, the registry holds exactly one live Connection
under that key — the one installed by the last join (last write wins) —
and its failure counter is 0 and its heartbeat timestamp fresh immediately
after (assuming the JS-map invariant that the key held at most one entry
to begin with). -/
theorem join_sequence_last_write_wins (st : ServerState) (uid rid : String)
    (l : List Nat) (w : Nat) (hu : uid ≠ "") (hr : rid ≠ "")
    (hkey : countKey st.clients (clientId rid uid) ≤ 1) :
    clientsGet (applyJoins st uid rid (l ++ [w])).clients (clientId rid uid) =
      some { ws := w, userId := uid, roomId := rid, failedHeartbeats := 0,
             lastHeartbeat := st.now } ∧
    countKey (applyJoins st uid rid (l ++ [w])).clients (clientId rid uid) = 1 := by
  rw [applyJoins_append]
  have hmidkey := applyJoins_countKey uid rid hu hr l st hkey
  have hmidnow := applyJoins_now uid rid l st
  simp only [applyJoins]
  rw [handleJoin_spec _ w uid rid hu hr]
  constructor
  · rw [clientsGet_set_self, hmidnow]
  · exact countKey_set _ _ _ hmidkey

/-- Witness for C8: transports 4, then 5, then 6 join `("R","P")` from the
empty state; afterwards the key holds exactly the transport-6 Connection
with counter 0. -/
theorem join_sequence_last_write_wins_witness :
    clientsGet (applyJoins emptyState "P" "R" ([4, 5] ++ [6])).clients
        (clientId "R" "P") =
      some { ws := 6, userId := "P", roomId := "R", failedHeartbeats := 0,
             lastHeartbeat := 0 } ∧
    countKey (applyJoins emptyState "P" "R" ([4, 5] ++ [6])).clients
        (clientId "R" "P") = 1 :=
  join_sequence_last_write_wins emptyState "P" "R" [4, 5] 6
    (by decide) (by decide) (by decide)
